import Mathlib

/-!
Verification of the gofsutil device/mount resolution and rescan subsystem.

This file gives a shallow embedding of the Go source of dell/gofsutil:
the pure string/path helpers are translated directly, and the sysfs-touching
operations are modelled as pure functions over an explicit `SysWorld`
(directory listings, file contents, symlink targets, and per-file
open/write/close outcomes), returning the list of successful sysfs writes
together with the returned error, mirroring the Go control flow statement
by statement.
-/

namespace Gofsutil

/-! ## Go string primitives -/

/-- Word character per Go regexp `\w`: `[0-9A-Za-z_]`. -/
def isWordChar (c : Char) : Bool :=
  c.isAlphanum || c = '_'

/-- Split a character list on a separator character; mirrors Go
`strings.Split` with a one-character separator (no empty-group removal). -/
def splitOnChar (sep : Char) : List Char → List (List Char)
  | [] => [[]]
  | x :: xs =>
    match splitOnChar sep xs with
    | [] => [[]]
    | g :: gs => if x = sep then [] :: g :: gs else (x :: g) :: gs

/-- Go `strings.Split(s, sep)` for a one-character separator. -/
def goSplit (s : String) (sep : Char) : List String :=
  (splitOnChar sep s.toList).map String.mk

/-- Go `strings.HasPrefix`. -/
def goHasPre (s pre : String) : Bool :=
  pre.toList.isPrefixOf s.toList

/-- Go `strings.HasSuffix`. -/
def goHasSuf (s suf : String) : Bool :=
  suf.toList.reverse.isPrefixOf s.toList.reverse

/-- ASCII whitespace as trimmed by Go `strings.TrimSpace` (the Unicode-only
space code points do not occur in the sysfs content involved here). -/
def isGoSpace (c : Char) : Bool :=
  c = ' ' || c = '\t' || c = '\n' || c = '\x0b' || c = '\x0c' || c = '\r'

/-- Trim characters satisfying `p` from both ends of a character list. -/
def trimBy (p : Char → Bool) (cs : List Char) : List Char :=
  ((cs.dropWhile p).reverse.dropWhile p).reverse

/-- Go `strings.TrimSpace`. -/
def trimSpace (s : String) : String :=
  String.mk (trimBy isGoSpace s.toList)

/-- Go `strings.Trim(s, cutset)`. -/
def goTrim (s : String) (cutset : String) : String :=
  String.mk (trimBy (fun c => cutset.toList.contains c) s.toList)

/-- Replace the first occurrence of `old` by `new`; mirrors
`strings.Replace(s, old, new, 1)` for non-empty `old`. -/
def replaceFirstL (old new : List Char) : List Char → List Char
  | [] => []
  | c :: cs =>
    if old.isPrefixOf (c :: cs) then new ++ (c :: cs).drop old.length
    else c :: replaceFirstL old new cs

/-- Go `strings.Replace(s, old, new, 1)` for non-empty `old`. -/
def goReplaceOnce (s old new : String) : String :=
  String.mk (replaceFirstL old.toList new.toList s.toList)

/-- Final path component, as computed by the Go idiom
`components := strings.Split(s, "/"); components[len(components)-1]`. -/
def lastComp (s : String) : String :=
  (goSplit s '/').getLastD ""

/-- Join a list of strings with a separator. -/
def joinWith (sep : String) : List String → String
  | [] => ""
  | [x] => x
  | x :: y :: xs => x ++ sep ++ joinWith sep (y :: xs)

/-! ## Go `path/filepath.Clean` (unix rules) -/

/-- Process path components for `filepath.Clean`: `out` is the output stack
(reversed); empty and `"."` components are dropped; `".."` pops a real
component, is dropped at the root of a rooted path, and accumulates at the
front of a relative path. -/
def goCleanAux (rooted : Bool) : List String → List String → List String
  | out, [] => out
  | out, c :: rest =>
    if c = "" || c = "." then goCleanAux rooted out rest
    else if c = ".." then
      match out with
      | [] =>
        if rooted then goCleanAux rooted [] rest
        else goCleanAux rooted [".."] rest
      | top :: outRest =>
        if top = ".." then goCleanAux rooted (".." :: top :: outRest) rest
        else goCleanAux rooted outRest rest
    else goCleanAux rooted (c :: out) rest

/-- Go `filepath.Clean` on unix: lexical cleaning of a path. -/
def goClean (path : String) : String :=
  if path = "" then "."
  else
    let rooted := goHasPre path "/"
    let comps := goCleanAux rooted [] (goSplit path '/')
    let body := joinWith "/" comps.reverse
    if rooted then "/" ++ body
    else if body = "" then "." else body

/-- Go `filepath.Join(a, b)` for two elements: join with `"/"` and clean,
skipping empty elements. -/
def goJoin (a b : String) : String :=
  if a = "" then (if b = "" then "" else goClean b)
  else goClean (a ++ "/" ++ b)

/-! ## Go integer formatting and parsing -/

/-- Hexadecimal digit character (lowercase), as printed by Go `%x`. -/
def hexDigitChar (n : Nat) : Char :=
  if n < 10 then Char.ofNat (48 + n) else Char.ofNat (87 + n)

/-- Hex digits of `n`, most significant first (fuel-driven recursion). -/
def natHexAux : Nat → Nat → List Char
  | 0, _ => []
  | _ + 1, 0 => []
  | fuel + 1, n => natHexAux fuel (n / 16) ++ [hexDigitChar (n % 16)]

/-- Lowercase hexadecimal rendering of a natural number. -/
def natHex (n : Nat) : String :=
  if n = 0 then "0" else String.mk (natHexAux (n + 1) n)

/-- Left-pad a string with `'0'` to length at least `k`. -/
def padZeros (k : Nat) (s : String) : String :=
  String.mk (List.replicate (k - s.length) '0') ++ s

/-- Go `fmt.Sprintf("%04x", i)` for an `int`: zero padding to total width 4,
with the padding placed after the sign for negative values. -/
def goHex4 (i : Int) : String :=
  if i < 0 then "-" ++ padZeros 3 (natHex i.natAbs) else padZeros 4 (natHex i.toNat)

/-- Go `fmt.Sprintf("%d", i)` / `strconv.Itoa`. -/
def goItoa (i : Int) : String :=
  toString i

/-- Hexadecimal digit test accepted by Go `strconv.ParseInt` with base 16. -/
def isHexDigitGo (c : Char) : Bool :=
  ('0' ≤ c && c ≤ '9') || ('a' ≤ c && c ≤ 'f') || ('A' ≤ c && c ≤ 'F')

/-- Numeric value of a hexadecimal digit. -/
def hexVal (c : Char) : Nat :=
  if '0' ≤ c && c ≤ '9' then c.toNat - 48
  else if 'a' ≤ c && c ≤ 'f' then c.toNat - 87
  else c.toNat - 55

/-- Go `strconv.ParseInt(s, 16, 32)`: optional sign, then one or more hex
digits (no `0x` since the base is explicit), with the value required to fit
in a signed 32-bit integer; `none` models a non-nil error. -/
def parseHexInt32 (s : String) : Option Int :=
  match s.toList with
  | [] => none
  | c :: rest =>
    let signed : Bool × List Char :=
      if c = '-' then (true, rest)
      else if c = '+' then (false, rest)
      else (false, c :: rest)
    match signed with
    | (neg, digits) =>
      if digits.isEmpty then none
      else if digits.all isHexDigitGo then
        let m : Nat := digits.foldl (fun a d => a * 16 + hexVal d) 0
        let v : Int := if neg then -(m : Int) else (m : Int)
        if -(2 ^ 31) ≤ v ∧ v ≤ 2 ^ 31 - 1 then some v else none
      else none

/-! ## Sysfs world model

The Go code interacts with the kernel through `os.ReadDir`, `os.ReadFile`,
`os.Readlink` and `os.OpenFile`/`WriteString`/`Close` on sysfs/udev paths.
A `SysWorld` fixes the outcome of each of these primitives per path; the
embedded operations return the list of successfully written `(path, content)`
pairs together with the Go function's returned error (`none` = nil). -/

structure SysWorld where
  readDir : String → Except String (List String)
  readFile : String → Except String String
  readLink : String → Except String String
  openW : String → Option String
  writeW : String → Option String
  closeW : String → Option String

/-- List of successful sysfs writes, in program order. -/
abbrev Writes := List (String × String)

/-- Directory constants as written in the source. -/
def multipathDevDiskByID : String := "/dev/disk/by-id"

/-- Pathname prefix for the native multipath entries in /dev/disk/by-id. -/
def MultipathDevDiskByIDPrefix : String := "/dev/disk/by-id/dm-uuid-mpath-3"

/-- Udev by-path directory. -/
def bypathdir : String := "/dev/disk/by-path"

/-- Sysfs iSCSI session directory. -/
def sessionsdir : String := "/sys/class/iscsi_session"

/-- Sysfs FC remote ports directory. -/
def fcRemotePortsDir : String := "/sys/class/fc_remote_ports"

/-- Sysfs FC hosts directory. -/
def fcHostsDir : String := "/sys/class/fc_host"

/-- Sysfs block device directory. -/
def sysBlockDir : String := "/sys/block"

/-- Sysfs SCSI host directory (local `hostsdir` in `rescanSCSIHost`). -/
def scsiHostsDir : String := "/sys/class/scsi_host"

/-- Required port prefix for FC target WWNs (`FCPortPrefix` in the source). -/
def FCPortPrefix : String := "0x50"

/-! ## Device-path resolver -/

/-- Embedding of `wwnToDevicePath`: try the multipath symlink, then the NVMe
symlink, then the plain WWN symlink; the first two candidates are skipped on
error or on an empty link target, the third only on error; the winning link
target's final path component is normalized to `/dev/<name>`. -/
def wwnToDevicePath (w : SysWorld) (wwn : String) : Except String (String × String) :=
  let c1 := MultipathDevDiskByIDPrefix ++ wwn
  let c2 := goJoin multipathDevDiskByID ("nvme-eui." ++ wwn)
  let c3 := goJoin multipathDevDiskByID ("wwn-0x" ++ wwn)
  let step3 : Except String (String × String) :=
    match w.readLink c3 with
    | .error e => .error e
    | .ok t => .ok (c3, t)
  let step2 : Except String (String × String) :=
    match w.readLink c2 with
    | .error _ => step3
    | .ok t => if t = "" then step3 else .ok (c2, t)
  let chosen : Except String (String × String) :=
    match w.readLink c1 with
    | .error _ => step2
    | .ok t => if t = "" then step2 else .ok (c1, t)
  match chosen with
  | .error e => .error e
  | .ok (link, t) => .ok (link, "/dev/" ++ lastComp t)

/-- Name filter of `targetIPLUNToDevicePath`: prefix `ip-<targetIP>:` and
suffix `-lun-<lunID>` (decimal) or `-lun-0x%04x000000000000` (hex). -/
def tiplMatches (targetIP : String) (lunID : Int) (name : String) : Bool :=
  goHasPre name ("ip-" ++ targetIP ++ ":") &&
    (goHasSuf name ("-lun-" ++ goItoa lunID) ||
      goHasSuf name ("-lun-0x" ++ goHex4 lunID ++ "000000000000"))

/-- Entry loop of `targetIPLUNToDevicePath`: resolve each matching by-path
entry; the accumulated result plus the error are returned if a readlink
fails. -/
def tiplLoop (w : SysWorld) (targetIP : String) (lunID : Int) :
    List String → List (String × String) × Option String
  | [] => ([], none)
  | name :: rest =>
    if tiplMatches targetIP lunID name then
      let path := bypathdir ++ "/" ++ name
      match w.readLink path with
      | .error e => ([], some e)
      | .ok t =>
        let (m, er) := tiplLoop w targetIP lunID rest
        ((path, "/dev/" ++ lastComp t) :: m, er)
    else tiplLoop w targetIP lunID rest

/-- Embedding of `targetIPLUNToDevicePath`: all `/dev/disk/by-path` entries
for a given target IP and LUN id, as an association list in directory
order (the Go map is keyed by full symlink path). -/
def targetIPLUNToDevicePath (w : SysWorld) (targetIP : String) (lunID : Int) :
    List (String × String) × Option String :=
  match w.readDir bypathdir with
  | .error e => ([], some e)
  | .ok entries => tiplLoop w targetIP lunID entries

/-! ## Rescan engine -/

/-- One rescan unit (`targetdev` in the source). -/
structure Targetdev where
  host : String
  channel : String
  target : String
deriving DecidableEq, Repr

/-- Embedding of `splitTargets`: iSCSI IQNs (prefix `iqn.`) left, FC port
WWNs (prefix `0x50`) right; anything else is logged and dropped. -/
def splitTargets : List String → List String × List String
  | [] => ([], [])
  | t :: rest =>
    let (i, f) := splitTargets rest
    if goHasPre t "iqn." then (t :: i, f)
    else if goHasPre t FCPortPrefix then (i, t :: f)
    else (i, f)

/-- Remote-port loop of `getFCTargetHosts` with the `duplicates` set
threaded through: an rport whose `port_name` is readable, carries the `0x50`
prefix and equals one of the targets contributes one entry with wildcard
channel/target, de-duplicated by host. -/
def fcLoop (w : SysWorld) (targets : List String) :
    List String → List String → List Targetdev
  | [], _ => []
  | name :: rest, dups =>
    if goHasPre name "rport-" then
      match w.readFile (fcRemotePortsDir ++ "/" ++ name ++ "/" ++ "port_name") with
      | .error _ => fcLoop w targets rest dups
      | .ok bytes =>
        let arrayPortName := trimSpace bytes
        if goHasPre arrayPortName FCPortPrefix then
          if targets.contains arrayPortName then
            let split := goSplit name ':'
            if 2 ≤ split.length then
              let host := goReplaceOnce (split.headD "") "rport-" "host"
              if dups.contains host then fcLoop w targets rest dups
              else ⟨host, "-", "-"⟩ :: fcLoop w targets rest (host :: dups)
            else fcLoop w targets rest dups
          else fcLoop w targets rest dups
        else fcLoop w targets rest dups
    else fcLoop w targets rest dups

/-- Embedding of `getFCTargetHosts`; the Go function always returns a nil
error (a directory read failure only empties the entry list). -/
def getFCTargetHosts (w : SysWorld) (targets : List String) : List Targetdev :=
  if targets.isEmpty then []
  else
    let entries := match w.readDir fcRemotePortsDir with
      | .ok l => l
      | .error _ => []
    fcLoop w targets entries []

/-- Device-directory loop of `getIscsiTargetHosts`: the first entry named
`target...` is inspected (the Go loop breaks after it); its name minus the
6-character prefix is split on `:` and yields an entry when it has at least
three components. -/
def iscsiDeviceScan : List String → Option Targetdev
  | [] => none
  | d :: rest =>
    if goHasPre d "target" then
      let split := goSplit (d.drop 6) ':'
      if 3 ≤ split.length then
        some ⟨"host" ++ split.headD "", split.getD 1 "", split.getD 2 ""⟩
      else none
    else iscsiDeviceScan rest

/-- Session loop of `getIscsiTargetHosts`: sessions whose trimmed
`targetname` equals one of the target IQNs contribute the entry parsed from
their `device/target<H>:<C>:<T>` subdirectory. -/
def iscsiLoop (w : SysWorld) (targets : List String) : List String → List Targetdev
  | [] => []
  | s :: rest =>
    if goHasPre s "session" then
      match w.readFile (sessionsdir ++ "/" ++ s ++ "/" ++ "targetname") with
      | .error _ => iscsiLoop w targets rest
      | .ok bytes =>
        let target := goTrim bytes "\n\r\t "
        if targets.contains target then
          match w.readDir (sessionsdir ++ "/" ++ s ++ "/" ++ "device") with
          | .error _ => iscsiLoop w targets rest
          | .ok devices =>
            match iscsiDeviceScan devices with
            | some e => e :: iscsiLoop w targets rest
            | none => iscsiLoop w targets rest
        else iscsiLoop w targets rest
    else iscsiLoop w targets rest

/-- Embedding of `getIscsiTargetHosts`: empty targets short-circuit with no
error; a session-directory read failure is the only error. -/
def getIscsiTargetHosts (w : SysWorld) (targets : List String) :
    List Targetdev × Option String :=
  if targets.isEmpty then ([], none)
  else
    match w.readDir sessionsdir with
    | .error e => ([], some e)
    | .ok sessions => (iscsiLoop w targets sessions, none)

/-- LUN normalization at the top of `rescanSCSIHost`: empty becomes the
wildcard `"-"`, otherwise the string is parsed as hex (`ParseInt(lun,16,32)`)
and re-rendered in decimal, falling back to the wildcard on parse failure. -/
def normalizeLUN (lun : String) : String :=
  if lun = "" then "-"
  else
    match parseHexInt32 lun with
    | some v => goItoa v
    | none => "-"

/-- Cleaned scan-file path of a SCSI host, as built by `rescanSCSIHost`
(`fmt.Sprintf("%s/%s/scan", hostsdir, host)` passed through
`filepath.Clean`). -/
def hostScanFile (host : String) : String :=
  goClean (scsiHostsDir ++ "/" ++ host ++ "/scan")

/-- Targeted write loop of `rescanSCSIHost`: for each resolved entry, open
the host's cleaned scan file (skip the host on failure), write
`"<channel> <target> <lun>"` (a write failure is only logged), and close
(a close failure returns the — nil — shadowed open error, ending the loop). -/
def scanWriteLoop (w : SysWorld) (lun : String) : List Targetdev → Writes
  | [] => []
  | e :: rest =>
    let scanfile := hostScanFile e.host
    let scanstring := e.channel ++ " " ++ e.target ++ " " ++ lun
    match w.openW scanfile with
    | some _ => scanWriteLoop w lun rest
    | none =>
      let wr : Writes :=
        match w.writeW scanfile with
        | some _ => []
        | none => [(scanfile, scanstring)]
      match w.closeW scanfile with
      | some _ => wr
      | none => wr ++ scanWriteLoop w lun rest

/-- Fallback write loop of `rescanSCSIHost`: write `"- - <lun>"` to the
cleaned scan file of every `host*` entry, with the same open/write/close
handling as the targeted loop. -/
def sweepAllLoop (w : SysWorld) (lun : String) : List String → Writes
  | [] => []
  | h :: rest =>
    if goHasPre h "host" then
      let scanfile := hostScanFile h
      let scanstring := "- - " ++ lun
      match w.openW scanfile with
      | some _ => sweepAllLoop w lun rest
      | none =>
        let wr : Writes :=
          match w.writeW scanfile with
          | some _ => []
          | none => [(scanfile, scanstring)]
        match w.closeW scanfile with
        | some _ => wr
        | none => wr ++ sweepAllLoop w lun rest
    else sweepAllLoop w lun rest

/-- Embedding of `rescanSCSIHost`: normalize the LUN, split the targets,
resolve FC then iSCSI target devices (an iSCSI resolution error is
returned), then either write to each resolved host's scan file, or — when
nothing was resolved — sweep every `host*` entry of /sys/class/scsi_host. -/
def rescanSCSIHost (w : SysWorld) (targets : List String) (lun0 : String) :
    Writes × Option String :=
  let lun := normalizeLUN lun0
  let (iscsiTargets, fcTargets) := splitTargets targets
  let fcDevs := getFCTargetHosts w fcTargets
  match getIscsiTargetHosts w iscsiTargets with
  | (_, some e) => ([], some e)
  | (iscsiDevs, none) =>
    let targetDevices := fcDevs ++ iscsiDevs
    if targetDevices.isEmpty then
      match w.readDir scsiHostsDir with
      | .error e => ([], some e)
      | .ok hosts => (sweepAllLoop w lun hosts, none)
    else (scanWriteLoop w lun targetDevices, none)

/-! ## Block device removal and FC LIP -/

/-- Embedding of `removeBlockDevice`: with at least two path components,
read the device's cleaned state file (unreadable state is a hard error),
fail fast when the trimmed state is `"blocked"`, otherwise write `"1"` to
the cleaned delete file (an open failure is returned, a write failure only
logged, a close failure returned); with a single component the Go function
falls through and returns nil without touching sysfs. -/
def removeBlockDevice (w : SysWorld) (blockDevicePath : String) :
    Writes × Option String :=
  let comps := goSplit blockDevicePath '/'
  if 1 < comps.length then
    let deviceName := comps.getLastD ""
    let statePath := goJoin sysBlockDir (deviceName ++ "/device/state")
    match w.readFile (goClean statePath) with
    | .error e => ([], some ("Cannot read " ++ statePath ++ ": " ++ e))
    | .ok stateBytes =>
      if trimSpace stateBytes = "blocked" then
        ([], some ("Device " ++ deviceName ++ " is in blocked state"))
      else
        let blockDeletePath := goJoin sysBlockDir (deviceName ++ "/device/delete")
        match w.openW (goClean blockDeletePath) with
        | some e => ([], some e)
        | none =>
          let wr : Writes :=
            match w.writeW (goClean blockDeletePath) with
            | some _ => []
            | none => [(goClean blockDeletePath, "1")]
          match w.closeW (goClean blockDeletePath) with
          | some e => (wr, some e)
          | none => (wr, none)
  else ([], none)

/-- Cleaned issue_lip path of an FC host, as built by
`issueLIPToAllFCHosts`. -/
def lipFilePath (host : String) : String :=
  goClean (fcHostsDir ++ "/" ++ host ++ "/issue_lip")

/-- Host loop of `issueLIPToAllFCHosts` with the `savedError` accumulator:
an open failure skips the host without recording anything, a write failure
replaces `savedError`, and a close failure returns the — nil — shadowed
open error, ending the sweep. -/
def lipLoop (w : SysWorld) : List String → Option String → Writes × Option String
  | [], saved => ([], saved)
  | h :: rest, saved =>
    if goHasPre h "host" then
      let lipFile := lipFilePath h
      match w.openW lipFile with
      | some _ => lipLoop w rest saved
      | none =>
        match w.writeW lipFile with
        | some e =>
          match w.closeW lipFile with
          | some _ => ([], none)
          | none => lipLoop w rest (some e)
        | none =>
          match w.closeW lipFile with
          | some _ => ([(lipFile, "1")], none)
          | none =>
            let (ws, r) := lipLoop w rest saved
            ((lipFile, "1") :: ws, r)
    else lipLoop w rest saved

/-- Embedding of `issueLIPToAllFCHosts`: write `"1"` to `issue_lip` of every
`host*` entry of /sys/class/fc_host (a directory read failure only empties
the list), returning the last recorded write error. -/
def issueLIPToAllFCHosts (w : SysWorld) : Writes × Option String :=
  let entries := match w.readDir fcHostsDir with
    | .ok l => l
    | .error _ => []
  lipLoop w entries none

/-! ## Validators (gofsutil_utils.go) -/

/-- Embedding of `validatePath`: rejects exactly the root path. -/
def validatePath (path : String) : Except String Unit :=
  if path = "/" then .error ("Path: " ++ path ++ " is invalid")
  else .ok ()

/-- Embedding of `validateFsType`: accepts exactly ext4, ext3, xfs, nfs. -/
def validateFsType (fsType : String) : Except String Unit :=
  if fsType ≠ "ext4" ∧ fsType ≠ "ext3" ∧ fsType ≠ "xfs" ∧ fsType ≠ "nfs" then
    .error ("FsType: " ++ fsType ++ " is invalid")
  else .ok ()

/-- Semantics of the unanchored Go regex match
`regexp.Match("[\\w]+[=]*[\\w]*", opt)`: the only mandatory atom is
`[\w]+`, whose minimal match is a single word character, so a match exists
iff the option contains at least one word character. -/
def mountOptRegexMatch (opt : String) : Bool :=
  opt.toList.any isWordChar

/-- Embedding of `validateMountOptions`: each option must match the
permissive token-or-key=value regex; the first failure is returned. -/
def validateMountOptions : List String → Except String Unit
  | [] => .ok ()
  | opt :: rest =>
    if mountOptRegexMatch opt then validateMountOptions rest
    else .error ("Mount option: " ++ opt ++ " is invalid")

/-- Flag characters of the multipath short-flag character class
`[AaBbCcdFfhilpqrTtUuWw0-9]`. -/
def isMultipathFlagChar (c : Char) : Bool :=
  "AaBbCcdFfhilpqrTtUuWw".toList.contains c || c.isDigit

/-- Semantics of the unanchored Go regex match
`regexp.Match("[[-][AaBbCcdFfhilpqrTtUuWw0-9]+]*[0-9]*", opt)` on a
character list: the mandatory atoms are the class `[[-]` (one of `[` or
`-`) and one repetition of the flag class; the trailing `]*` and `[0-9]*`
match empty, so a match exists iff some character `[` or `-` is immediately
followed by a flag character. -/
def hasFlagPairL : List Char → Bool
  | c1 :: c2 :: rest =>
    ((c1 = '[' || c1 = '-') && isMultipathFlagChar c2) || hasFlagPairL (c2 :: rest)
  | _ => false

/-- Unanchored match of the multipath short-flag regex on a string. -/
def hasFlagPair (opt : String) : Bool :=
  hasFlagPairL opt.toList

/-- Embedding of `validateMultipathArgs`: each argument must match the
short-flag regex or, failing that, its cleaned form must pass
`validatePath`. -/
def validateMultipathArgs : List String → Except String Unit
  | [] => .ok ()
  | opt :: rest =>
    if hasFlagPair opt then validateMultipathArgs rest
    else
      match validatePath (goClean opt) with
      | .error _ => .error ("Multipath option: " ++ opt ++ " is invalid")
      | .ok _ => validateMultipathArgs rest

/-- Embedding of `validateMountArgs`: clean and path-validate source and
target, validate a non-empty fsType, then validate the options. -/
def validateMountArgs (source target fsType : String) (opts : List String) :
    Except String Unit :=
  match validatePath (goClean source) with
  | .error e => .error e
  | .ok _ =>
    match validatePath (goClean target) with
    | .error e => .error e
    | .ok _ =>
      match (if fsType ≠ "" then validateFsType fsType else .ok ()) with
      | .error e => .error e
      | .ok _ => validateMountOptions opts

/-! ## formatAndMount (gofsutil_mount_linux.go)

The external effects of `formatAndMount` — the initial mount attempt, the
`getDiskFormat` probe, the `mkfs` run and the retry mount — each happen at
most once, in program order, so they are modelled as oracle fields of a
`MountWorld`. -/

structure MountWorld where
  mount1 : Except String Unit
  diskFormat : Except String String
  mkfsOk : Bool
  mount2 : Except String Unit

/-- Extraction of a trailing `fsFormatOption:`-prefixed option: mirrors the
source, which trims only the `fsFormatOption` prefix (keeping the colon)
and splits the remainder on spaces. -/
def extractFsFormatOption (opts : List String) : List String × List String :=
  if opts.isEmpty then ([], opts)
  else
    let lastOpt := opts.getLastD ""
    if goHasPre lastOpt "fsFormatOption:" then
      (goSplit (lastOpt.drop "fsFormatOption".length) ' ', opts.dropLast)
    else ([], opts)

/-- Construction of the mkfs argument vector, mirroring the source's
sequential reassignments of `args` for the default and the caller-supplied
format-option cases. -/
def mkfsArgs (noDiscard : Bool) (fsFormatOption : List String)
    (fsType source : String) : List String :=
  if fsFormatOption.isEmpty then
    let args := [source]
    let args :=
      if fsType = "ext4" ∨ fsType = "ext3" then
        if noDiscard then ["-F", "-E", "nodiscard", source] else ["-F", source]
      else args
    let args := if fsType = "xfs" ∧ noDiscard then ["-K", source] else args
    if fsType = "xfs" then args ++ ["-m", "crc=0"] else args
  else
    if noDiscard then
      let args := [source]
      let args :=
        if fsType = "ext4" ∨ fsType = "ext3" then
          fsFormatOption ++ ["-E", "nodiscard", source]
        else args
      if fsType = "xfs" then fsFormatOption ++ ["-K", source] else args
    else fsFormatOption ++ [source]

/-- Embedding of `formatAndMount`: validate, attempt the mount, and on
failure dispatch on the detected on-disk format — format-and-retry when
blank, surface the mount error when the requested type is empty or matches,
and a mismatch error naming both types otherwise. The second component
records the mkfs invocation, if any. -/
def formatAndMount (mw : MountWorld) (noDiscard : Bool)
    (source target fsType : String) (opts : List String) :
    Except String Unit × Option (String × List String) :=
  match validateMountArgs source target fsType opts with
  | .error e => (.error e, none)
  | .ok _ =>
    let (fsFormatOption, _opts') := extractFsFormatOption opts
    match mw.mount1 with
    | .ok _ => (.ok (), none)
    | .error mountErr =>
      match mw.diskFormat with
      | .error e => (.error e, none)
      | .ok existingFormat =>
        if existingFormat = "" then
          let fsType := if fsType = "" then "ext4" else fsType
          let args := mkfsArgs noDiscard fsFormatOption fsType source
          (mw.mount2, some ("mkfs." ++ fsType, args))
        else if fsType = "" ∨ fsType = existingFormat then
          (.error mountErr, none)
        else
          (.error ("failed to mount volume as \"" ++ fsType ++
            "\"; already contains " ++ existingFormat ++ ": error: " ++ mountErr),
            none)

/-! ## Statement-side abbreviations -/

/-- Target devices resolved by one `rescanSCSIHost` invocation: FC-derived
entries followed by iSCSI-derived entries. -/
def resolvedTargetDevices (w : SysWorld) (targets : List String) : List Targetdev :=
  getFCTargetHosts w (splitTargets targets).2 ++
    (getIscsiTargetHosts w (splitTargets targets).1).1

/-- Host entries of the FC LIP sweep that get `"1"` written: name starts
with `host`, and both the open and the write succeed. -/
def lipWritten (w : SysWorld) (h : String) : Bool :=
  goHasPre h "host" && (w.openW (lipFilePath h)).isNone &&
    (w.writeW (lipFilePath h)).isNone

/-- Host entries of the FC LIP sweep whose write fails (after a successful
open): exactly the ones whose error lands in `savedError`. -/
def lipFailed (w : SysWorld) (h : String) : Bool :=
  goHasPre h "host" && (w.openW (lipFilePath h)).isNone &&
    (w.writeW (lipFilePath h)).isSome

/-! ## Concrete worlds for witnesses and counterexamples -/

/-- World with one iSCSI session for IQN `iqn.x` mapped to
`target3:0:0`, and all sysfs writes succeeding. -/
def w1 : SysWorld where
  readDir := fun p =>
    if p = "/sys/class/iscsi_session" then .ok ["session1"]
    else if p = "/sys/class/iscsi_session/session1/device" then .ok ["target3:0:0"]
    else .error "ENOENT"
  readFile := fun p =>
    if p = "/sys/class/iscsi_session/session1/targetname" then .ok "iqn.x\n"
    else .error "ENOENT"
  readLink := fun _ => .error "ENOENT"
  openW := fun _ => none
  writeW := fun _ => none
  closeW := fun _ => none

/-- World where only the multipath by-id symlink for WWN `abc` exists. -/
def w2 : SysWorld where
  readDir := fun _ => .error "ENOENT"
  readFile := fun _ => .error "ENOENT"
  readLink := fun p =>
    if p = MultipathDevDiskByIDPrefix ++ "abc" then .ok "../../dm-0"
    else .error "ENOENT"
  openW := fun _ => none
  writeW := fun _ => none
  closeW := fun _ => none

/-- World where every device state file reads `blocked`. -/
def wBlocked : SysWorld where
  readDir := fun _ => .error "ENOENT"
  readFile := fun _ => .ok "blocked"
  readLink := fun _ => .error "ENOENT"
  openW := fun _ => none
  writeW := fun _ => none
  closeW := fun _ => none

/-- World where every device state file reads `running` and all writes
succeed. -/
def wRunning : SysWorld where
  readDir := fun _ => .error "ENOENT"
  readFile := fun _ => .ok "running"
  readLink := fun _ => .error "ENOENT"
  openW := fun _ => none
  writeW := fun _ => none
  closeW := fun _ => none

/-- World with two by-path entries, one matching `ip-1.1.1.1` LUN 5, all
symlinks resolving to `../../sdc`. -/
def w6 : SysWorld where
  readDir := fun p =>
    if p = "/dev/disk/by-path" then .ok ["ip-1.1.1.1:3260-iscsi-iqn.x-lun-5", "other"]
    else .error "ENOENT"
  readFile := fun _ => .error "ENOENT"
  readLink := fun _ => .ok "../../sdc"
  openW := fun _ => none
  writeW := fun _ => none
  closeW := fun _ => none

/-- World with one FC remote port `rport-7:0-1` whose port name is
`0x50beef`. -/
def w7 : SysWorld where
  readDir := fun p =>
    if p = "/sys/class/fc_remote_ports" then .ok ["rport-7:0-1"]
    else .error "ENOENT"
  readFile := fun p =>
    if p = "/sys/class/fc_remote_ports/rport-7:0-1/port_name" then .ok "0x50beef\n"
    else .error "ENOENT"
  readLink := fun _ => .error "ENOENT"
  openW := fun _ => none
  writeW := fun _ => none
  closeW := fun _ => none

/-- World with two FC hosts where the write to host0's issue_lip fails. -/
def w8 : SysWorld where
  readDir := fun p =>
    if p = "/sys/class/fc_host" then .ok ["host0", "host1"]
    else .error "ENOENT"
  readFile := fun _ => .error "ENOENT"
  readLink := fun _ => .error "ENOENT"
  openW := fun _ => none
  writeW := fun p =>
    if p = "/sys/class/fc_host/host0/issue_lip" then some "EIO" else none
  closeW := fun _ => none

/-- World with one FC host whose issue_lip file cannot be opened. -/
def wLipOpenFail : SysWorld where
  readDir := fun p =>
    if p = "/sys/class/fc_host" then .ok ["host0"] else .error "ENOENT"
  readFile := fun _ => .error "ENOENT"
  readLink := fun _ => .error "ENOENT"
  openW := fun _ => some "permission denied"
  writeW := fun _ => none
  closeW := fun _ => none

/-- Mount world whose initial mount fails and whose disk carries an ext4
filesystem. -/
def mwExt4 : MountWorld where
  mount1 := .error "mount failed"
  diskFormat := .ok "ext4"
  mkfsOk := true
  mount2 := .ok ()

/-- Mount world whose initial mount fails with `boom` on a disk carrying an
xfs filesystem. -/
def mwXfs : MountWorld where
  mount1 := .error "boom"
  diskFormat := .ok "xfs"
  mkfsOk := true
  mount2 := .ok ()

/-! ## Theorems -/

/-- Unanchored-match characterization of the multipath short-flag regex:
a match exists exactly when some `[` or `-` is immediately followed by an
allowed flag character. -/
theorem hasFlagPairL_iff : ∀ cs, hasFlagPairL cs = true ↔
    ∃ l c1 c2 r, cs = l ++ c1 :: c2 :: r ∧ (c1 = '[' ∨ c1 = '-') ∧
      isMultipathFlagChar c2 = true
  | [] => by
    constructor
    · intro h
      exact absurd h (by simp [hasFlagPairL])
    · rintro ⟨l, c1, c2, r, heq, -, -⟩
      exfalso
      have hlen := congrArg List.length heq
      simp at hlen
      omega
  | [c] => by
    constructor
    · intro h
      exact absurd h (by simp [hasFlagPairL])
    · rintro ⟨l, c1, c2, r, heq, -, -⟩
      exfalso
      have hlen := congrArg List.length heq
      simp at hlen
      omega
  | c1 :: c2 :: rest => by
    rw [hasFlagPairL]
    simp only [Bool.or_eq_true, Bool.and_eq_true, decide_eq_true_eq]
    constructor
    · intro h
      rcases h with ⟨h1, h2⟩ | h
      · exact ⟨[], c1, c2, rest, rfl, h1, h2⟩
      · rcases (hasFlagPairL_iff (c2 :: rest)).mp h with ⟨l, d1, d2, r, heq, h1, h2⟩
        exact ⟨c1 :: l, d1, d2, r, by rw [heq]; rfl, h1, h2⟩
    · rintro ⟨l, d1, d2, r, heq, h1, h2⟩
      rcases l with _ | ⟨a, l⟩
      · simp only [List.nil_append, List.cons.injEq] at heq
        obtain ⟨he1, he2, -⟩ := heq
        subst he1
        subst he2
        exact Or.inl ⟨h1, h2⟩
      · simp only [List.cons_append, List.cons.injEq] at heq
        obtain ⟨-, heq2⟩ := heq
        exact Or.inr ((hasFlagPairL_iff (c2 :: rest)).mpr ⟨l, d1, d2, r, heq2, h1, h2⟩)

/-- C10: `validateMultipathArgs(opt)` errors exactly when `opt` has no
occurrence of `[` or `-` immediately followed by an allowed flag character
(letters AaBbCcdFfhilpqrTtUuWw or a digit) and `filepath.Clean(opt)` is the
root path; every other string, the empty string included, is accepted —
the short-flag regex is matched unanchored and the path fallback only
rejects `/`. -/
theorem validateMultipathArgs_single_iff (opt : String) :
    (validateMultipathArgs [opt] =
        .error ("Multipath option: " ++ opt ++ " is invalid")
      ↔ hasFlagPair opt = false ∧ goClean opt = "/")
    ∧ (hasFlagPair opt = true ↔
        ∃ l c1 c2 r, opt.toList = l ++ c1 :: c2 :: r ∧ (c1 = '[' ∨ c1 = '-') ∧
          isMultipathFlagChar c2 = true) := by
  constructor
  · by_cases hf : hasFlagPair opt
    · simp [validateMultipathArgs, hf]
    · by_cases hc : goClean opt = "/"
      · simp [validateMultipathArgs, hf, validatePath, hc]
      · simp [validateMultipathArgs, hf, validatePath, hc]
  · exact hasFlagPairL_iff opt.toList

/-- C9: the code rejects the empty and the whitespace-only mount option:
the unanchored regex `[\w]+[=]*[\w]*` needs at least one word character, so
`validateMountOptions` returns an InvalidOption error for `""` and `" "`,
although the code's own comment lists them as valid examples. -/
theorem validateMountOptions_rejects_empty :
    validateMountOptions [""] = .error ("Mount option: " ++ "" ++ " is invalid")
    ∧ validateMountOptions [" "] =
        .error ("Mount option: " ++ " " ++ " is invalid") :=
  ⟨rfl, rfl⟩

/-- C4 counterexample: with an unspecified (empty) `fsType`, a failed mount
and a detected `ext4` format, `formatAndMount` returns the original mount
error verbatim, not a mismatch error naming both filesystem types. -/
theorem formatAndMount_empty_fstype_counterexample :
    mwExt4.diskFormat = .ok "ext4" ∧ mwExt4.mount1 = .error "mount failed" ∧
      formatAndMount mwExt4 false "/dev/sdz1" "/mnt/x" "" [] =
        (.error "mount failed", none) :=
  ⟨rfl, rfl, rfl⟩

/-- C4 (amended): after a failed mount with a non-empty detected format,
`formatAndMount` returns a mismatch error naming both the requested and the
detected filesystem type when the requested `fsType` is non-empty and
differs, and surfaces the original mount error verbatim when `fsType` is
empty or matches the detected format. -/
theorem formatAndMount_existing_format (mw : MountWorld) (nd : Bool)
    (source target fsType : String) (opts : List String)
    (mountErr fmtS : String)
    (hv : validateMountArgs source target fsType opts = .ok ())
    (hm : mw.mount1 = .error mountErr)
    (hd : mw.diskFormat = .ok fmtS)
    (hne : fmtS ≠ "") :
    (fsType ≠ "" ∧ fsType ≠ fmtS →
      formatAndMount mw nd source target fsType opts =
        (.error ("failed to mount volume as \"" ++ fsType ++
          "\"; already contains " ++ fmtS ++ ": error: " ++ mountErr), none))
    ∧ ((fsType = "" ∨ fsType = fmtS) →
      formatAndMount mw nd source target fsType opts =
        (.error mountErr, none)) := by
  have hred : formatAndMount mw nd source target fsType opts =
      (if fsType = "" ∨ fsType = fmtS then (.error mountErr, none)
        else (.error ("failed to mount volume as \"" ++ fsType ++
          "\"; already contains " ++ fmtS ++ ": error: " ++ mountErr), none)) := by
    simp only [formatAndMount, hv, hm, hd]
    rw [if_neg hne]
  constructor
  · rintro ⟨h1, h2⟩
    rw [hred, if_neg (by tauto)]
  · intro h
    rw [hred, if_pos h]

/-- C4 witness: a requested ext4 over a detected xfs yields the mismatch
error naming both types. -/
theorem formatAndMount_existing_format_witness :
    formatAndMount mwXfs false "/dev/sda" "/mnt/a" "ext4" [] =
      (.error ("failed to mount volume as \"" ++ "ext4" ++
        "\"; already contains " ++ "xfs" ++ ": error: " ++ "boom"), none) :=
  (formatAndMount_existing_format mwXfs false "/dev/sda" "/mnt/a" "ext4" []
    "boom" "xfs" rfl rfl rfl (by decide)).1 (by decide)

/-- C3 counterexample: on a path without a separator the Go function falls
through its `len(components) > 1` guard and returns nil without reading the
state file, so a blocked device named by a bare `sdx` produces no error —
the claim's promised blocked-state error does not occur. -/
theorem removeBlockDevice_no_slash_counterexample :
    wBlocked.readFile
        (goClean (goJoin sysBlockDir ("sdx" ++ "/device/state"))) = .ok "blocked"
    ∧ trimSpace "blocked" = "blocked"
    ∧ removeBlockDevice wBlocked "sdx" = ([], none) :=
  ⟨rfl, rfl, rfl⟩

/-- C3 (amended): for every path with at least two `/`-separated
components, `removeBlockDevice` fails with an error containing the device
name and performs no write when the trimmed state reads `blocked`; fails
hard when the state file is unreadable; and otherwise writes `"1"` to
`/sys/block/<deviceName>/device/delete`, where `deviceName` is the final
path component. -/
theorem removeBlockDevice_behavior (w : SysWorld) (path : String)
    (hlen : 1 < (goSplit path '/').length) :
    (∀ st, w.readFile (goClean (goJoin sysBlockDir
          ((goSplit path '/').getLastD "" ++ "/device/state"))) = .ok st →
        trimSpace st = "blocked" →
        removeBlockDevice w path =
          ([], some ("Device " ++ (goSplit path '/').getLastD "" ++
            " is in blocked state")))
    ∧ (∀ e, w.readFile (goClean (goJoin sysBlockDir
          ((goSplit path '/').getLastD "" ++ "/device/state"))) = .error e →
        removeBlockDevice w path =
          ([], some ("Cannot read " ++ goJoin sysBlockDir
            ((goSplit path '/').getLastD "" ++ "/device/state") ++ ": " ++ e)))
    ∧ (∀ st, w.readFile (goClean (goJoin sysBlockDir
          ((goSplit path '/').getLastD "" ++ "/device/state"))) = .ok st →
        trimSpace st ≠ "blocked" →
        w.openW (goClean (goJoin sysBlockDir
          ((goSplit path '/').getLastD "" ++ "/device/delete"))) = none →
        w.writeW (goClean (goJoin sysBlockDir
          ((goSplit path '/').getLastD "" ++ "/device/delete"))) = none →
        w.closeW (goClean (goJoin sysBlockDir
          ((goSplit path '/').getLastD "" ++ "/device/delete"))) = none →
        removeBlockDevice w path =
          ([(goClean (goJoin sysBlockDir
            ((goSplit path '/').getLastD "" ++ "/device/delete")), "1")], none)) := by
  refine ⟨?_, ?_, ?_⟩
  · intro st hst hb
    simp only [removeBlockDevice, if_pos hlen]
    rw [hst]
    simp [hb]
  · intro e he
    simp only [removeBlockDevice, if_pos hlen]
    rw [he]
  · intro st hst hb ho hw hc
    simp only [removeBlockDevice, if_pos hlen]
    rw [hst, ho, hw, hc]
    simp [hb]

/-- C3 witness: removing `/dev/sdx` on a running device writes `"1"` to the
delete file. -/
theorem removeBlockDevice_behavior_witness :
    removeBlockDevice wRunning "/dev/sdx" =
      ([("/sys/block/sdx/device/delete", "1")], none) :=
  (removeBlockDevice_behavior wRunning "/dev/sdx" (by decide)).2.2 "running"
    rfl (by decide) rfl rfl rfl

/-- C2: `wwnToDevicePath` tries the multipath, NVMe and plain-WWN by-id
symlinks in that fixed order; the first candidate whose readlink succeeds
wins (link targets are non-empty on a real system, which the hypothesis
records), the target's final path component is normalized to `/dev/<name>`,
both the symlink path and the `/dev` path are returned, and an error is
returned only after all three candidates fail. -/
theorem wwnToDevicePath_priority (w : SysWorld) (wwn : String)
    (hne : ∀ p t, w.readLink p = .ok t → t ≠ "") :
    (∀ t, w.readLink (MultipathDevDiskByIDPrefix ++ wwn) = .ok t →
      wwnToDevicePath w wwn =
        .ok (MultipathDevDiskByIDPrefix ++ wwn, "/dev/" ++ lastComp t))
    ∧ (∀ e1 t, w.readLink (MultipathDevDiskByIDPrefix ++ wwn) = .error e1 →
      w.readLink (goJoin multipathDevDiskByID ("nvme-eui." ++ wwn)) = .ok t →
      wwnToDevicePath w wwn =
        .ok (goJoin multipathDevDiskByID ("nvme-eui." ++ wwn),
          "/dev/" ++ lastComp t))
    ∧ (∀ e1 e2 t, w.readLink (MultipathDevDiskByIDPrefix ++ wwn) = .error e1 →
      w.readLink (goJoin multipathDevDiskByID ("nvme-eui." ++ wwn)) = .error e2 →
      w.readLink (goJoin multipathDevDiskByID ("wwn-0x" ++ wwn)) = .ok t →
      wwnToDevicePath w wwn =
        .ok (goJoin multipathDevDiskByID ("wwn-0x" ++ wwn),
          "/dev/" ++ lastComp t))
    ∧ (∀ e1 e2 e3, w.readLink (MultipathDevDiskByIDPrefix ++ wwn) = .error e1 →
      w.readLink (goJoin multipathDevDiskByID ("nvme-eui." ++ wwn)) = .error e2 →
      w.readLink (goJoin multipathDevDiskByID ("wwn-0x" ++ wwn)) = .error e3 →
      wwnToDevicePath w wwn = .error e3) := by
  refine ⟨?_, ?_, ?_, ?_⟩
  · intro t h1
    simp [wwnToDevicePath, h1, hne _ _ h1]
  · intro e1 t h1 h2
    simp [wwnToDevicePath, h1, h2, hne _ _ h2]
  · intro e1 e2 t h1 h2 h3
    simp [wwnToDevicePath, h1, h2, h3]
  · intro e1 e2 e3 h1 h2 h3
    simp [wwnToDevicePath, h1, h2, h3]

/-- C2 witness: with only the multipath symlink present for WWN `abc`,
resolution returns the multipath by-id path and `/dev/dm-0`. -/
theorem wwnToDevicePath_priority_witness :
    wwnToDevicePath w2 "abc" =
      .ok ("/dev/disk/by-id/dm-uuid-mpath-3abc", "/dev/dm-0") :=
  (wwnToDevicePath_priority w2 "abc" (by
    intro p t h
    simp only [w2] at h
    split at h
    · cases h
      decide
    · cases h)).1 "../../dm-0" rfl

/-- Entry loop of the by-path scan: when every matching entry's symlink
resolves, the loop returns no error, its keys are exactly the matching
entries' full paths in directory order, and every returned pair resolves a
matching entry to `/dev/<final component of its link target>`. -/
theorem tiplLoop_ok (w : SysWorld) (tIP : String) (lunID : Int)
    (entries : List String)
    (hlink : ∀ name ∈ entries, tiplMatches tIP lunID name = true →
        ∃ t, w.readLink (bypathdir ++ "/" ++ name) = .ok t) :
    (tiplLoop w tIP lunID entries).2 = none
    ∧ ((tiplLoop w tIP lunID entries).1.map Prod.fst) =
        (entries.filter (fun n => tiplMatches tIP lunID n)).map
          (fun n => bypathdir ++ "/" ++ n)
    ∧ (∀ p d, (p, d) ∈ (tiplLoop w tIP lunID entries).1 →
        ∃ name t, name ∈ entries ∧ tiplMatches tIP lunID name = true ∧
          p = bypathdir ++ "/" ++ name ∧
          w.readLink (bypathdir ++ "/" ++ name) = .ok t ∧
          d = "/dev/" ++ lastComp t) := by
  induction entries with
  | nil =>
    refine ⟨rfl, rfl, ?_⟩
    intro p d h
    cases h
  | cons name rest ih =>
    have hrest := ih (fun n hn hmn => hlink n (List.mem_cons_of_mem _ hn) hmn)
    by_cases hm : tiplMatches tIP lunID name
    · obtain ⟨t, ht⟩ := hlink name (List.mem_cons_self _ _) hm
      rcases htl : tiplLoop w tIP lunID rest with ⟨m, er⟩
      rw [htl] at hrest
      have hstep : tiplLoop w tIP lunID (name :: rest) =
          ((bypathdir ++ "/" ++ name, "/dev/" ++ lastComp t) :: m, er) := by
        simp only [tiplLoop, if_pos hm, ht, htl]
      rw [hstep]
      refine ⟨hrest.1, ?_, ?_⟩
      · simp only [List.map_cons, List.filter_cons, hm, if_pos]
        exact congrArg _ hrest.2.1
      · intro p d hpd
        rcases List.mem_cons.mp hpd with hpd | hpd
        · obtain ⟨hp, hd⟩ := Prod.mk.injEq .. ▸ hpd
          exact ⟨name, t, List.mem_cons_self _ _, hm, by rw [hp], ht, by rw [hd]⟩
        · obtain ⟨n', t', hn', hmn', hp', hl', hd'⟩ := hrest.2.2 p d hpd
          exact ⟨n', t', List.mem_cons_of_mem _ hn', hmn', hp', hl', hd'⟩
    · have hstep : tiplLoop w tIP lunID (name :: rest) =
          tiplLoop w tIP lunID rest := by
        simp only [tiplLoop, if_neg hm]
      rw [hstep]
      refine ⟨hrest.1, ?_, ?_⟩
      · have hb : tiplMatches tIP lunID name = false := by simpa using hm
        simp only [List.filter_cons, hb, Bool.false_eq_true, if_false]
        exact hrest.2.1
      · intro p d hpd
        obtain ⟨n', t', hn', hmn', hp', hl', hd'⟩ := hrest.2.2 p d hpd
        exact ⟨n', t', List.mem_cons_of_mem _ hn', hmn', hp', hl', hd'⟩

/-- C6: `targetIPLUNToDevicePath` keeps exactly the by-path entries whose
name starts with `ip-<targetIP>:` and ends with `-lun-<decimal lunID>` or
`-lun-0x<4-hex-digit zero-padded lunID>000000000000`, mapping each matching
symlink's full path to its resolved `/dev/<name>` target, and returns an
empty map with no error when nothing matches. -/
theorem targetIPLUNToDevicePath_matches (w : SysWorld) (tIP : String)
    (lunID : Int) (entries : List String)
    (hdir : w.readDir bypathdir = .ok entries)
    (hlink : ∀ name ∈ entries, tiplMatches tIP lunID name = true →
        ∃ t, w.readLink (bypathdir ++ "/" ++ name) = .ok t) :
    (targetIPLUNToDevicePath w tIP lunID).2 = none
    ∧ ((targetIPLUNToDevicePath w tIP lunID).1.map Prod.fst) =
        (entries.filter (fun n => tiplMatches tIP lunID n)).map
          (fun n => bypathdir ++ "/" ++ n)
    ∧ (∀ p d, (p, d) ∈ (targetIPLUNToDevicePath w tIP lunID).1 →
        ∃ name t, name ∈ entries ∧ tiplMatches tIP lunID name = true ∧
          p = bypathdir ++ "/" ++ name ∧
          w.readLink (bypathdir ++ "/" ++ name) = .ok t ∧
          d = "/dev/" ++ lastComp t)
    ∧ ((entries.filter (fun n => tiplMatches tIP lunID n)) = [] →
        targetIPLUNToDevicePath w tIP lunID = ([], none)) := by
  have hTP : targetIPLUNToDevicePath w tIP lunID = tiplLoop w tIP lunID entries := by
    simp only [targetIPLUNToDevicePath, hdir]
  have h := tiplLoop_ok w tIP lunID entries hlink
  rw [hTP]
  refine ⟨h.1, h.2.1, h.2.2, ?_⟩
  intro hempty
  have h1 : (tiplLoop w tIP lunID entries).1 = [] := by
    have := h.2.1
    rw [hempty] at this
    simpa using this
  have h2 := h.1
  rcases hp : tiplLoop w tIP lunID entries with ⟨a, b⟩
  rw [hp] at h1 h2
  simp at h1 h2
  rw [h1, h2]

/-- C6 witness: with one matching decimal-suffix entry and one unrelated
entry, the map keeps exactly the matching entry's full path and no error
is returned. -/
theorem targetIPLUNToDevicePath_matches_witness :
    (targetIPLUNToDevicePath w6 "1.1.1.1" 5).2 = none
    ∧ ((targetIPLUNToDevicePath w6 "1.1.1.1" 5).1.map Prod.fst) =
        ["/dev/disk/by-path/ip-1.1.1.1:3260-iscsi-iqn.x-lun-5"] := by
  have h := targetIPLUNToDevicePath_matches w6 "1.1.1.1" 5
    ["ip-1.1.1.1:3260-iscsi-iqn.x-lun-5", "other"] rfl
    (fun name hn hm => ⟨"../../sdc", rfl⟩)
  exact ⟨h.1, h.2.1.trans (by decide)⟩

/-- LIP host loop characterization: with succeeding closes, the writes are
exactly the openable-and-writable `host*` entries in order, and the
returned error is the write error of the last failing host, or the
incoming `savedError` when none fails. -/
theorem lipLoop_spec (w : SysWorld) :
    ∀ entries saved,
      (∀ h ∈ entries, goHasPre h "host" = true → w.openW (lipFilePath h) = none →
        w.closeW (lipFilePath h) = none) →
      lipLoop w entries saved =
        ((entries.filter (lipWritten w)).map (fun h => (lipFilePath h, "1")),
          match (entries.filter (lipFailed w)).getLast? with
          | some h => w.writeW (lipFilePath h)
          | none => saved) := by
  intro entries
  induction entries with
  | nil => intro saved _; rfl
  | cons h rest ih =>
    intro saved hclose
    have hcrest := fun n hn => hclose n (List.mem_cons_of_mem _ hn)
    rcases hpre : goHasPre h "host" with _ | _
    · have hwfalse : lipWritten w h = false := by simp [lipWritten, hpre]
      have hffalse : lipFailed w h = false := by simp [lipFailed, hpre]
      simp only [lipLoop, hpre, Bool.false_eq_true, if_false, List.filter_cons,
        hwfalse, hffalse]
      exact ih saved hcrest
    · rcases hop : w.openW (lipFilePath h) with _ | e1
      · have hcl : w.closeW (lipFilePath h) = none :=
          hclose h (List.mem_cons_self _ _) hpre hop
        rcases hwr : w.writeW (lipFilePath h) with _ | e2
        · have hwtrue : lipWritten w h = true := by
            simp [lipWritten, hpre, hop, hwr]
          have hffalse : lipFailed w h = false := by
            simp [lipFailed, hpre, hop, hwr]
          simp only [lipLoop, hpre, if_true, hop, hwr, hcl, List.filter_cons,
            hwtrue, hffalse, Bool.false_eq_true, if_false]
          rw [ih saved hcrest]
          rfl
        · have hwfalse : lipWritten w h = false := by
            simp [lipWritten, hop, hwr]
          have hftrue : lipFailed w h = true := by
            simp [lipFailed, hpre, hop, hwr]
          simp only [lipLoop, hpre, if_true, hop, hwr, hcl, List.filter_cons,
            hwfalse, hftrue, Bool.false_eq_true, if_false, if_true]
          rw [ih (some e2) hcrest]
          cases hfr : rest.filter (lipFailed w) with
          | nil => simp [hwr]
          | cons a l =>
            rw [List.getLast?_cons_cons]
            cases hgl : (a :: l).getLast? with
            | none => simp at hgl
            | some b => rfl
      · have hwfalse : lipWritten w h = false := by simp [lipWritten, hop]
        have hffalse : lipFailed w h = false := by simp [lipFailed, hop]
        simp only [lipLoop, hpre, if_true, hop, List.filter_cons, hwfalse,
          hffalse, Bool.false_eq_true, if_false]
        exact ih saved hcrest

/-- C8 counterexample: a host whose issue_lip file cannot be opened is a
per-host failure, yet nothing is recorded and the sweep returns nil — the
return value does not report that this host failed. -/
theorem issueLIPToAllFCHosts_open_failure_counterexample :
    wLipOpenFail.readDir fcHostsDir = .ok ["host0"]
    ∧ wLipOpenFail.openW (lipFilePath "host0") = some "permission denied"
    ∧ issueLIPToAllFCHosts wLipOpenFail = ([], none) :=
  ⟨rfl, rfl, rfl⟩

/-- C8 (amended): `issueLIPToAllFCHosts` writes `"1"` to the issue_lip file
of every `host*` entry that can be opened and written; a host whose open
fails is skipped without recording an error; a failed write records its
error and the sweep continues; provided all closes succeed, the function
returns the error of the last host whose write failed, and nil otherwise —
in particular nil even when some hosts could not be opened. -/
theorem issueLIPToAllFCHosts_behavior (w : SysWorld) (entries : List String)
    (hdir : w.readDir fcHostsDir = .ok entries)
    (hclose : ∀ h ∈ entries, goHasPre h "host" = true →
      w.openW (lipFilePath h) = none → w.closeW (lipFilePath h) = none) :
    issueLIPToAllFCHosts w =
      ((entries.filter (lipWritten w)).map (fun h => (lipFilePath h, "1")),
        (entries.filter (lipFailed w)).getLast?.bind
          (fun h => w.writeW (lipFilePath h))) := by
  have hstart : issueLIPToAllFCHosts w = lipLoop w entries none := by
    simp [issueLIPToAllFCHosts, hdir]
  rw [hstart, lipLoop_spec w entries none hclose]
  cases (entries.filter (lipFailed w)).getLast? <;> rfl

/-- C8 witness: with host0's write failing and host1 succeeding, the sweep
writes `"1"` to host1 only and returns host0's write error. -/
theorem issueLIPToAllFCHosts_behavior_witness :
    issueLIPToAllFCHosts w8 =
      ([("/sys/class/fc_host/host1/issue_lip", "1")], some "EIO") := by
  have h := issueLIPToAllFCHosts_behavior w8 ["host0", "host1"] rfl
    (fun n hn hpre hop => rfl)
  exact h.trans (by decide)

/-- Reassociation of the literal fallback scan string: `"- - " ++ s` is the
wildcard channel and target joined with spaces in front of `s`. -/
theorem dashdash_append (s : String) :
    "- - " ++ s = "-" ++ (" " ++ ("-" ++ (" " ++ s))) := by
  cases s with
  | mk data => rfl

/-- Every write of the targeted scan loop names a listed entry's scan file
and carries that entry's channel, target and the given LUN. -/
theorem scanWriteLoop_mem (w : SysWorld) (lun : String) :
    ∀ devs p c, (p, c) ∈ scanWriteLoop w lun devs →
      ∃ e, e ∈ devs ∧ p = hostScanFile e.host ∧
        c = e.channel ++ " " ++ e.target ++ " " ++ lun := by
  intro devs
  induction devs with
  | nil => intro p c h; simp [scanWriteLoop] at h
  | cons e rest ih =>
    intro p c h
    have lift : (∃ e', e' ∈ rest ∧ p = hostScanFile e'.host ∧
        c = e'.channel ++ " " ++ e'.target ++ " " ++ lun) →
        ∃ e', e' ∈ e :: rest ∧ p = hostScanFile e'.host ∧
          c = e'.channel ++ " " ++ e'.target ++ " " ++ lun := by
      rintro ⟨e', hm, hrest⟩
      exact ⟨e', List.mem_cons_of_mem _ hm, hrest⟩
    rcases hop : w.openW (hostScanFile e.host) with _ | e1
    · rcases hwr : w.writeW (hostScanFile e.host) with _ | e2
      · rcases hcl : w.closeW (hostScanFile e.host) with _ | e3
        · simp only [scanWriteLoop, hop, hwr, hcl, List.cons_append,
            List.nil_append, List.mem_cons] at h
          rcases h with h | h
          · obtain ⟨hp, hc⟩ := Prod.mk.injEq .. ▸ h
            exact ⟨e, List.mem_cons_self _ _, hp, hc⟩
          · exact lift (ih p c h)
        · simp only [scanWriteLoop, hop, hwr, hcl, List.mem_singleton] at h
          obtain ⟨hp, hc⟩ := Prod.mk.injEq .. ▸ h
          exact ⟨e, List.mem_cons_self _ _, hp, hc⟩
      · rcases hcl : w.closeW (hostScanFile e.host) with _ | e3
        · simp only [scanWriteLoop, hop, hwr, hcl, List.nil_append] at h
          exact lift (ih p c h)
        · simp only [scanWriteLoop, hop, hwr, hcl] at h
          simp at h
    · simp only [scanWriteLoop, hop] at h
      exact lift (ih p c h)

/-- Every write of the all-hosts sweep names a `host*` entry's scan file
and carries the wildcard scan string `"- - <lun>"`. -/
theorem sweepAllLoop_mem (w : SysWorld) (lun : String) :
    ∀ hosts p c, (p, c) ∈ sweepAllLoop w lun hosts →
      ∃ hs, goHasPre hs "host" = true ∧ p = hostScanFile hs ∧
        c = "- - " ++ lun := by
  intro hosts
  induction hosts with
  | nil => intro p c h; simp [sweepAllLoop] at h
  | cons hs rest ih =>
    intro p c h
    rcases hpre : goHasPre hs "host" with _ | _
    · simp only [sweepAllLoop, hpre, Bool.false_eq_true, if_false] at h
      exact ih p c h
    · rcases hop : w.openW (hostScanFile hs) with _ | e1
      · rcases hwr : w.writeW (hostScanFile hs) with _ | e2
        · rcases hcl : w.closeW (hostScanFile hs) with _ | e3
          · simp only [sweepAllLoop, hpre, if_true, hop, hwr, hcl,
              List.cons_append, List.nil_append, List.mem_cons] at h
            rcases h with h | h
            · obtain ⟨hp, hc⟩ := Prod.mk.injEq .. ▸ h
              exact ⟨hs, hpre, hp, hc⟩
            · exact ih p c h
          · simp only [sweepAllLoop, hpre, if_true, hop, hwr, hcl,
              List.mem_singleton] at h
            obtain ⟨hp, hc⟩ := Prod.mk.injEq .. ▸ h
            exact ⟨hs, hpre, hp, hc⟩
        · rcases hcl : w.closeW (hostScanFile hs) with _ | e3
          · simp only [sweepAllLoop, hpre, if_true, hop, hwr, hcl,
              List.nil_append] at h
            exact ih p c h
          · simp only [sweepAllLoop, hpre, if_true, hop, hwr, hcl] at h
            simp at h
      · simp only [sweepAllLoop, hpre, if_true, hop] at h
        exact ih p c h

/-- With succeeding opens, writes and closes, the targeted loop writes the
scan string to each listed entry's scan file, in order. -/
theorem scanWriteLoop_all_ok (w : SysWorld) (lun : String) :
    ∀ devs,
      (∀ e ∈ devs, w.openW (hostScanFile e.host) = none ∧
        w.writeW (hostScanFile e.host) = none ∧
        w.closeW (hostScanFile e.host) = none) →
      scanWriteLoop w lun devs =
        devs.map (fun e => (hostScanFile e.host,
          e.channel ++ " " ++ e.target ++ " " ++ lun)) := by
  intro devs
  induction devs with
  | nil => intro _; rfl
  | cons e rest ih =>
    intro hok
    obtain ⟨ho, hw, hc⟩ := hok e (List.mem_cons_self _ _)
    simp only [scanWriteLoop, ho, hw, hc, List.map_cons, List.cons_append,
      List.nil_append]
    rw [ih (fun e' he' => hok e' (List.mem_cons_of_mem _ he'))]

/-- With succeeding opens, writes and closes, the all-hosts sweep writes
`"- - <lun>"` to every `host*` entry's scan file, in order. -/
theorem sweepAllLoop_all_ok (w : SysWorld) (lun : String) :
    ∀ hosts,
      (∀ h ∈ hosts, goHasPre h "host" = true →
        w.openW (hostScanFile h) = none ∧ w.writeW (hostScanFile h) = none ∧
        w.closeW (hostScanFile h) = none) →
      sweepAllLoop w lun hosts =
        (hosts.filter (fun h => goHasPre h "host")).map
          (fun h => (hostScanFile h, "- - " ++ lun)) := by
  intro hosts
  induction hosts with
  | nil => intro _; rfl
  | cons hs rest ih =>
    intro hok
    have hrest := ih (fun h' hh' => hok h' (List.mem_cons_of_mem _ hh'))
    rcases hpre : goHasPre hs "host" with _ | _
    · simp only [sweepAllLoop, hpre, Bool.false_eq_true, if_false,
        List.filter_cons, hrest]
    · obtain ⟨ho, hw, hc⟩ := hok hs (List.mem_cons_self _ _) hpre
      simp only [sweepAllLoop, hpre, if_true, ho, hw, hc, List.filter_cons,
        List.map_cons, List.cons_append, List.nil_append, hrest]

/-- Reduction of `rescanSCSIHost` when iSCSI resolution does not error:
the call is the targeted loop over the resolved entries, or — when none
were resolved — the all-hosts sweep of /sys/class/scsi_host. -/
theorem rescanSCSIHost_eq (w : SysWorld) (targets : List String) (lun : String)
    (hres : (getIscsiTargetHosts w (splitTargets targets).1).2 = none) :
    rescanSCSIHost w targets lun =
      (if (resolvedTargetDevices w targets).isEmpty then
        match w.readDir scsiHostsDir with
        | .error e => ([], some e)
        | .ok hosts => (sweepAllLoop w (normalizeLUN lun) hosts, none)
      else
        (scanWriteLoop w (normalizeLUN lun) (resolvedTargetDevices w targets),
          none)) := by
  rcases hsp : splitTargets targets with ⟨its, fts⟩
  rcases hI : getIscsiTargetHosts w its with ⟨ids, ierr⟩
  have hie : ierr = none := by
    rw [hsp] at hres
    rw [hI] at hres
    exact hres
  subst hie
  simp only [rescanSCSIHost, resolvedTargetDevices, hsp, hI]

/-- C1: when the resolved target devices (FC united with iSCSI) are
non-empty, `rescanSCSIHost` is exactly the targeted loop — the all-hosts
fallback never runs, every write goes to a resolved host's scan file with
that entry's `"<channel> <target> <lun>"` string, and with succeeding
opens/writes/closes each resolved host receives the write; when zero
entries were resolved (nil/empty targets included), `"- - <lun>"` is
written to the scan file of every `host*` entry of /sys/class/scsi_host. -/
theorem rescanSCSIHost_targeted_or_sweep (w : SysWorld) (targets : List String)
    (lun : String)
    (hres : (getIscsiTargetHosts w (splitTargets targets).1).2 = none) :
    (resolvedTargetDevices w targets ≠ [] →
      rescanSCSIHost w targets lun =
        (scanWriteLoop w (normalizeLUN lun) (resolvedTargetDevices w targets),
          none)
      ∧ (∀ p c, (p, c) ∈ (rescanSCSIHost w targets lun).1 →
          ∃ e, e ∈ resolvedTargetDevices w targets ∧ p = hostScanFile e.host ∧
            c = e.channel ++ " " ++ e.target ++ " " ++ normalizeLUN lun)
      ∧ ((∀ e ∈ resolvedTargetDevices w targets,
            w.openW (hostScanFile e.host) = none ∧
            w.writeW (hostScanFile e.host) = none ∧
            w.closeW (hostScanFile e.host) = none) →
          (rescanSCSIHost w targets lun).1 =
            (resolvedTargetDevices w targets).map
              (fun e => (hostScanFile e.host,
                e.channel ++ " " ++ e.target ++ " " ++ normalizeLUN lun))))
    ∧ (resolvedTargetDevices w targets = [] →
        ∀ hosts, w.readDir scsiHostsDir = .ok hosts →
          (∀ h ∈ hosts, goHasPre h "host" = true →
            w.openW (hostScanFile h) = none ∧
            w.writeW (hostScanFile h) = none ∧
            w.closeW (hostScanFile h) = none) →
          rescanSCSIHost w targets lun =
            ((hosts.filter (fun h => goHasPre h "host")).map
              (fun h => (hostScanFile h, "- - " ++ normalizeLUN lun)), none)) := by
  have hred := rescanSCSIHost_eq w targets lun hres
  constructor
  · intro hne
    have hemp : (resolvedTargetDevices w targets).isEmpty = false := by
      rcases hd : resolvedTargetDevices w targets with _ | ⟨a, l⟩
      · exact absurd hd hne
      · rfl
    simp only [hemp, Bool.false_eq_true, if_false] at hred
    refine ⟨hred, ?_, ?_⟩
    · intro p c hmem
      rw [hred] at hmem
      exact scanWriteLoop_mem w (normalizeLUN lun) _ p c hmem
    · intro hok
      rw [hred]
      exact scanWriteLoop_all_ok w (normalizeLUN lun) _ hok
  · intro hzero hosts hdir hok
    have hemp : (resolvedTargetDevices w targets).isEmpty = true := by
      rw [hzero]
      rfl
    simp only [hemp, if_true, hdir] at hred
    rw [hred, sweepAllLoop_all_ok w (normalizeLUN lun) hosts hok]

/-- C1 witness: one matching iSCSI session under `target3:0:0` and an empty
LUN make `rescanSCSIHost` write exactly `"0 0 -"` to host3's scan file. -/
theorem rescanSCSIHost_targeted_or_sweep_witness :
    (rescanSCSIHost w1 ["iqn.x"] "").1 =
      [("/sys/class/scsi_host/host3/scan", "0 0 -")] := by
  have hdevs : resolvedTargetDevices w1 ["iqn.x"] =
      [⟨"host3", "0", "0"⟩] := by decide
  have h := (rescanSCSIHost_targeted_or_sweep w1 ["iqn.x"] "" rfl).1
    (by rw [hdevs]; intro hc; cases hc)
  rw [h.2.2 (by rw [hdevs]; intro e he; exact ⟨rfl, rfl, rfl⟩)]
  rw [hdevs]
  rfl

/-- C5: every scan-file write of `rescanSCSIHost` uses the normalized LUN:
the empty LUN becomes the wildcard `"-"`; a LUN that parses as a signed
32-bit hexadecimal integer is re-rendered in decimal; a LUN that fails the
hex parse falls back to the wildcard instead of an error. -/
theorem rescanSCSIHost_lun_normalized (w : SysWorld) (targets : List String)
    (lun : String) :
    (∀ p c, (p, c) ∈ (rescanSCSIHost w targets lun).1 →
      ∃ ch tg, c = ch ++ " " ++ tg ++ " " ++ normalizeLUN lun)
    ∧ (lun = "" → normalizeLUN lun = "-")
    ∧ (∀ v, parseHexInt32 lun = some v → normalizeLUN lun = goItoa v)
    ∧ (lun ≠ "" → parseHexInt32 lun = none → normalizeLUN lun = "-") := by
  refine ⟨?_, ?_, ?_, ?_⟩
  · intro p c h
    rcases hsp : splitTargets targets with ⟨its, fts⟩
    rcases hI : getIscsiTargetHosts w its with ⟨ids, ierr⟩
    cases ierr with
    | some e =>
      simp only [rescanSCSIHost, hsp, hI] at h
      simp at h
    | none =>
      simp only [rescanSCSIHost, hsp, hI] at h
      by_cases hemp : (getFCTargetHosts w fts ++ ids).isEmpty
      · rw [if_pos hemp] at h
        rcases hrd : w.readDir scsiHostsDir with e | hosts
        · rw [hrd] at h
          simp at h
        · rw [hrd] at h
          obtain ⟨hs, hpre, hp, hc⟩ :=
            sweepAllLoop_mem w (normalizeLUN lun) hosts p c h
          exact ⟨"-", "-", by rw [hc]; exact dashdash_append _⟩
      · rw [if_neg hemp] at h
        obtain ⟨e, hm, hp, hc⟩ :=
          scanWriteLoop_mem w (normalizeLUN lun) _ p c h
        exact ⟨e.channel, e.target, hc⟩
  · intro h0
    simp [normalizeLUN, h0]
  · intro v hv
    have h0 : lun ≠ "" := by
      intro h0
      have hnone : parseHexInt32 "" = none := rfl
      rw [h0, hnone] at hv
      cases hv
    simp [normalizeLUN, h0, hv]
  · intro h0 hn
    simp [normalizeLUN, h0, hn]

/-- C5 witness: the hex LUN `"a"` parses to 10 and is rendered in decimal. -/
theorem rescanSCSIHost_lun_normalized_witness :
    parseHexInt32 "a" = some 10 ∧ normalizeLUN "a" = goItoa 10 :=
  ⟨rfl, (rescanSCSIHost_lun_normalized w1 ["iqn.x"] "a").2.2.1 10 rfl⟩

/-- Every FC-derived rescan entry carries the wildcard channel and target. -/
theorem fcLoop_wildcards (w : SysWorld) (ts : List String) :
    ∀ entries dups e, e ∈ fcLoop w ts entries dups →
      e.channel = "-" ∧ e.target = "-" := by
  intro entries
  induction entries with
  | nil => intro dups e h; simp [fcLoop] at h
  | cons name rest ih =>
    intro dups e h
    rcases hpre : goHasPre name "rport-" with _ | _
    · simp only [fcLoop, hpre, Bool.false_eq_true, if_false] at h
      exact ih dups e h
    · rcases hrf : w.readFile (fcRemotePortsDir ++ "/" ++ name ++ "/" ++
          "port_name") with e1 | bytes <;>
        simp only [fcLoop, hpre, if_true, hrf] at h
      · exact ih dups e h
      · rcases hap : goHasPre (trimSpace bytes) FCPortPrefix with _ | _ <;>
          simp only [hap, Bool.false_eq_true, if_false, if_true] at h
        · exact ih dups e h
        · rcases hcon : ts.contains (trimSpace bytes) with _ | _ <;>
            simp only [hcon, Bool.false_eq_true, if_false, if_true] at h
          · exact ih dups e h
          · by_cases hlen : 2 ≤ (goSplit name ':').length
            · rw [if_pos hlen] at h
              rcases hdup : dups.contains (goReplaceOnce
                  ((goSplit name ':').headD "") "rport-" "host") with _ | _ <;>
                simp only [hdup, Bool.false_eq_true, if_false, if_true] at h
              · rcases List.mem_cons.mp h with h' | h'
                · subst h'
                  exact ⟨rfl, rfl⟩
                · exact ih _ e h'
              · exact ih dups e h
            · rw [if_neg hlen] at h
              exact ih dups e h

/-- The FC pass de-duplicates by host: the produced hosts are distinct and
avoid the incoming duplicates set. -/
theorem fcLoop_hosts_fresh (w : SysWorld) (ts : List String) :
    ∀ entries dups,
      ((fcLoop w ts entries dups).map Targetdev.host).Nodup ∧
      ∀ hn ∈ (fcLoop w ts entries dups).map Targetdev.host, hn ∉ dups := by
  intro entries
  induction entries with
  | nil =>
    intro dups
    refine ⟨List.nodup_nil, ?_⟩
    intro hn h
    simp [fcLoop] at h
  | cons name rest ih =>
    intro dups
    rcases hpre : goHasPre name "rport-" with _ | _
    · simp only [fcLoop, hpre, Bool.false_eq_true, if_false]
      exact ih dups
    · rcases hrf : w.readFile (fcRemotePortsDir ++ "/" ++ name ++ "/" ++
          "port_name") with e1 | bytes <;>
        simp only [fcLoop, hpre, if_true, hrf]
      · exact ih dups
      · rcases hap : goHasPre (trimSpace bytes) FCPortPrefix with _ | _ <;>
          simp only [hap, Bool.false_eq_true, if_false, if_true]
        · exact ih dups
        · rcases hcon : ts.contains (trimSpace bytes) with _ | _ <;>
            simp only [hcon, Bool.false_eq_true, if_false, if_true]
          · exact ih dups
          · by_cases hlen : 2 ≤ (goSplit name ':').length
            · rw [if_pos hlen]
              rcases hdup : dups.contains (goReplaceOnce
                  ((goSplit name ':').headD "") "rport-" "host") with _ | _ <;>
                simp only [hdup, Bool.false_eq_true, if_false, if_true]
              · have hnotin : goReplaceOnce
                    ((goSplit name ':').headD "") "rport-" "host" ∉ dups := by
                  intro hc
                  have htrue := List.elem_eq_true_of_mem hc
                  have hfalse : List.elem (goReplaceOnce
                      ((goSplit name ':').headD "") "rport-" "host") dups =
                      false := hdup
                  rw [hfalse] at htrue
                  cases htrue
                constructor
                · simp only [List.map_cons, List.nodup_cons]
                  refine ⟨?_, (ih _).1⟩
                  intro hmem
                  exact (ih _).2 _ hmem (List.mem_cons_self _ _)
                · intro hn hmem
                  simp only [List.map_cons, List.mem_cons] at hmem
                  rcases hmem with h' | h'
                  · subst h'
                    exact hnotin
                  · intro hc
                    exact (ih _).2 hn h' (List.mem_cons_of_mem _ hc)
              · exact ih dups
            · rw [if_neg hlen]
              exact ih dups

/-- Shape of a successful device-directory scan: the produced entry is
parsed from a `target…` directory name with at least three `:`-separated
components after the 6-character prefix. -/
theorem iscsiDeviceScan_some (devices : List String) (e : Targetdev) :
    iscsiDeviceScan devices = some e →
    ∃ dname, dname ∈ devices ∧ goHasPre dname "target" = true ∧
      3 ≤ (goSplit (dname.drop 6) ':').length ∧
      e.host = "host" ++ (goSplit (dname.drop 6) ':').headD "" ∧
      e.channel = (goSplit (dname.drop 6) ':').getD 1 "" ∧
      e.target = (goSplit (dname.drop 6) ':').getD 2 "" := by
  induction devices with
  | nil => intro h; cases h
  | cons d rest ih =>
    intro h
    rcases hpre : goHasPre d "target" with _ | _
    · simp only [iscsiDeviceScan, hpre, Bool.false_eq_true, if_false] at h
      obtain ⟨d', hm, hrest⟩ := ih h
      exact ⟨d', List.mem_cons_of_mem _ hm, hrest⟩
    · simp only [iscsiDeviceScan, hpre, if_true] at h
      by_cases hlen : 3 ≤ (goSplit (d.drop 6) ':').length
      · rw [if_pos hlen] at h
        cases h
        exact ⟨d, List.mem_cons_self _ _, hpre, hlen, rfl, rfl, rfl⟩
      · rw [if_neg hlen] at h
        cases h

/-- Every iSCSI-derived rescan entry comes from the first `target…` entry
of some session's device directory, with host/channel/target taken from its
`:`-separated components. -/
theorem iscsiLoop_shape (w : SysWorld) (ts : List String) :
    ∀ sessions e, e ∈ iscsiLoop w ts sessions →
      ∃ s devices dname, goHasPre s "session" = true ∧
        w.readDir (sessionsdir ++ "/" ++ s ++ "/" ++ "device") = .ok devices ∧
        dname ∈ devices ∧ goHasPre dname "target" = true ∧
        3 ≤ (goSplit (dname.drop 6) ':').length ∧
        e.host = "host" ++ (goSplit (dname.drop 6) ':').headD "" ∧
        e.channel = (goSplit (dname.drop 6) ':').getD 1 "" ∧
        e.target = (goSplit (dname.drop 6) ':').getD 2 "" := by
  intro sessions
  induction sessions with
  | nil => intro e h; simp [iscsiLoop] at h
  | cons s rest ih =>
    intro e h
    rcases hsess : goHasPre s "session" with _ | _
    · simp only [iscsiLoop, hsess, Bool.false_eq_true, if_false] at h
      exact ih e h
    · rcases hrf : w.readFile (sessionsdir ++ "/" ++ s ++ "/" ++ "targetname")
          with e1 | bytes <;>
        simp only [iscsiLoop, hsess, if_true, hrf] at h
      · exact ih e h
      · rcases hcon : ts.contains (goTrim bytes "\n\r\t ") with _ | _ <;>
          simp only [hcon, Bool.false_eq_true, if_false, if_true] at h
        · exact ih e h
        · rcases hdir : w.readDir (sessionsdir ++ "/" ++ s ++ "/" ++ "device")
              with e2 | devices <;>
            simp only [hdir] at h
          · exact ih e h
          · rcases hscan : iscsiDeviceScan devices with _ | e0 <;>
              simp only [hscan] at h
            · exact ih e h
            · rcases List.mem_cons.mp h with h' | h'
              · subst h'
                obtain ⟨dname, hdm, hdpre, hdlen, hh, hc, ht⟩ :=
                  iscsiDeviceScan_some devices e hscan
                exact ⟨s, devices, dname, hsess, hdir, hdm, hdpre, hdlen,
                  hh, hc, ht⟩
              · exact ih e h'

/-- C7: FC-derived entries always carry the wildcard `"-"` as channel and
target and are de-duplicated by host within one FC resolution pass; iSCSI-
derived entries take their channel and target from the components of the
sysfs `target<H>:<C>:<T>` device-directory name, so when those components
are digit strings the entry's channel and target are digit strings. -/
theorem targetdev_invariant (w : SysWorld) (fcTs iscsiTs : List String) :
    (∀ e ∈ getFCTargetHosts w fcTs, e.channel = "-" ∧ e.target = "-")
    ∧ ((getFCTargetHosts w fcTs).map Targetdev.host).Nodup
    ∧ (∀ e ∈ (getIscsiTargetHosts w iscsiTs).1,
        ∃ s devices dname, goHasPre s "session" = true ∧
          w.readDir (sessionsdir ++ "/" ++ s ++ "/" ++ "device") = .ok devices ∧
          dname ∈ devices ∧ goHasPre dname "target" = true ∧
          3 ≤ (goSplit (dname.drop 6) ':').length ∧
          e.host = "host" ++ (goSplit (dname.drop 6) ':').headD "" ∧
          e.channel = (goSplit (dname.drop 6) ':').getD 1 "" ∧
          e.target = (goSplit (dname.drop 6) ':').getD 2 "" ∧
          ((∀ part ∈ goSplit (dname.drop 6) ':', part.toList.all Char.isDigit) →
            e.channel.toList.all Char.isDigit ∧
              e.target.toList.all Char.isDigit)) := by
  refine ⟨?_, ?_, ?_⟩
  · intro e he
    rcases hemp : fcTs.isEmpty with _ | _
    · simp only [getFCTargetHosts, hemp, Bool.false_eq_true, if_false] at he
      exact fcLoop_wildcards w fcTs _ [] e he
    · simp only [getFCTargetHosts, hemp, if_true] at he
      simp at he
  · rcases hemp : fcTs.isEmpty with _ | _
    · simp only [getFCTargetHosts, hemp, Bool.false_eq_true, if_false]
      exact (fcLoop_hosts_fresh w fcTs _ []).1
    · simp only [getFCTargetHosts, hemp, if_true]
      exact List.nodup_nil
  · intro e he
    rcases hemp : iscsiTs.isEmpty with _ | _
    swap
    · simp only [getIscsiTargetHosts, hemp, if_true] at he
      simp at he
    · simp only [getIscsiTargetHosts, hemp, Bool.false_eq_true, if_false] at he
      rcases hrd : w.readDir sessionsdir with e2 | sessions <;>
        simp only [hrd] at he
      · simp at he
      · obtain ⟨s, devices, dname, hsess, hdir, hdm, hdpre, hdlen, hh, hc, ht⟩ :=
          iscsiLoop_shape w iscsiTs sessions e he
        refine ⟨s, devices, dname, hsess, hdir, hdm, hdpre, hdlen, hh, hc, ht, ?_⟩
        intro hdig
        have h1lt : 1 < (goSplit (dname.drop 6) ':').length := by omega
        have h2lt : 2 < (goSplit (dname.drop 6) ':').length := by omega
        constructor
        · rw [hc, List.getD_eq_getElem _ _ h1lt]
          exact hdig _ (List.getElem_mem _)
        · rw [ht, List.getD_eq_getElem _ _ h2lt]
          exact hdig _ (List.getElem_mem _)

/-- C7 witness: the FC remote port `rport-7:0-1` matching target `0x50beef`
yields the single entry `host7` with wildcard channel and target. -/
theorem targetdev_invariant_witness :
    (Targetdev.mk "host7" "-" "-") ∈ getFCTargetHosts w7 ["0x50beef"]
    ∧ (Targetdev.mk "host7" "-" "-").channel = "-"
    ∧ (Targetdev.mk "host7" "-" "-").target = "-" := by
  have hm : (Targetdev.mk "host7" "-" "-") ∈ getFCTargetHosts w7 ["0x50beef"] := by
    decide
  have h := (targetdev_invariant w7 ["0x50beef"] []).1 _ hm
  exact ⟨hm, h.1, h.2⟩

end Gofsutil
